import Mathlib

/-!
Verification of the EmojiesParser media-download pipeline (`main.py`).

The development shallowly embeds the pure core of the pipeline:
filename sanitization (`sanitize_filename`), the collision-avoiding
filename registry (`get_unique_filename`), the per-item emoji and
sticker fetch strategies (`download_single_emoji`,
`download_single_sticker`) and the per-kind executors
(`download_emojis`, `download_stickers`).  Network responses are an
explicit parameter (`String → NetResult`); the Pillow imaging library
is abstracted by a decoder parameter together with a flag telling
whether the multi-frame GIF encode succeeds.
-/

set_option maxHeartbeats 1000000

namespace EmojiesParser

/-! ### Decimal representation of naturals

`main.py` builds numbered filenames with an f-string (`f"{base}{counter}{ext}"`),
which in the embedding becomes `base ++ Nat.repr counter ++ ext`.  The proofs
about the filename registry need that `Nat.repr` is injective and never empty,
which we establish via a structural recursion `decDigits` equal to the
fuel-based `Nat.toDigitsCore` used by core. -/

/-- Decimal digit characters of `n`, most significant first. -/
def decDigits (n : Nat) : List Char :=
  if h : n < 10 then [Nat.digitChar n]
  else decDigits (n / 10) ++ [Nat.digitChar (n % 10)]
termination_by n
decreasing_by exact Nat.div_lt_self (by omega) (by omega)

/-- Numeric value of a decimal digit character. -/
def digitVal (c : Char) : Nat := c.toNat - 48

/-- Evaluate a digit string back to a natural number. -/
def evalDigits (l : List Char) : Nat := l.foldl (fun a c => 10 * a + digitVal c) 0

theorem digitVal_digitChar {d : Nat} (hd : d < 10) : digitVal (Nat.digitChar d) = d := by
  interval_cases d <;> rfl

theorem evalDigits_append_singleton (l : List Char) (c : Char) :
    evalDigits (l ++ [c]) = 10 * evalDigits l + digitVal c := by
  simp [evalDigits, List.foldl_append]

theorem evalDigits_decDigits (n : Nat) : evalDigits (decDigits n) = n := by
  induction n using Nat.strong_induction_on with
  | _ n ih =>
    rw [decDigits]
    split
    · next h =>
      simp [evalDigits, digitVal_digitChar h]
    · next h =>
      have hlt : n / 10 < n := Nat.div_lt_self (by omega) (by omega)
      rw [evalDigits_append_singleton, ih (n / 10) hlt,
        digitVal_digitChar (Nat.mod_lt n (by omega)), Nat.div_add_mod]

theorem decDigits_injective {m n : Nat} (h : decDigits m = decDigits n) : m = n := by
  have hm := evalDigits_decDigits m
  rw [h, evalDigits_decDigits] at hm
  exact hm.symm

theorem decDigits_ne_nil (n : Nat) : decDigits n ≠ [] := by
  rw [decDigits]
  split <;> simp

theorem toDigitsCore_eq_decDigits :
    ∀ (fuel n : Nat) (acc : List Char), n < fuel →
      Nat.toDigitsCore 10 fuel n acc = decDigits n ++ acc := by
  intro fuel
  induction fuel with
  | zero => intro n acc h; omega
  | succ f ih =>
    intro n acc h
    rw [Nat.toDigitsCore]
    by_cases h0 : n / 10 = 0
    · have hn : n < 10 := by
        by_contra hge
        have : 0 < n / 10 := Nat.div_pos (by omega) (by omega)
        omega
      rw [if_pos h0, decDigits, dif_pos hn, Nat.mod_eq_of_lt hn]
      simp
    · have hlt : n / 10 < n := Nat.div_lt_self (by omega) (by omega)
      have hfuel : n / 10 < f := by omega
      rw [if_neg h0, ih (n / 10) _ hfuel]
      conv_rhs => rw [decDigits]
      rw [dif_neg (by omega : ¬ n < 10), List.append_assoc]
      simp

theorem repr_data (n : Nat) : (Nat.repr n).data = decDigits n := by
  show ((Nat.toDigits 10 n).asString).data = decDigits n
  rw [Nat.toDigits, toDigitsCore_eq_decDigits (n + 1) n [] (Nat.lt_succ_self n)]
  simp [List.asString]

theorem repr_injective {m n : Nat} (h : Nat.repr m = Nat.repr n) : m = n :=
  decDigits_injective (by rw [← repr_data, ← repr_data, h])

theorem repr_data_ne_nil (n : Nat) : (Nat.repr n).data ≠ [] := by
  rw [repr_data]; exact decDigits_ne_nil n

/-! ### Filename sanitization (`sanitize_filename`, main.py lines 41-50)

`re.sub(r'[<>:"/\\|?*]', '_', filename)` becomes a character map,
`filename.rstrip('. ')` strips trailing dots and spaces, and the empty
result is replaced by `"unnamed"`. -/

/-- The characters `re.sub(r'[<>:"/\\|?*]', '_', ...)` replaces. -/
def invalidChars : List Char := ['<', '>', ':', '\"', '/', '\\', '|', '?', '*']

/-- Replacement performed on one character by the `re.sub` call. -/
def replChar (c : Char) : Char := if c ∈ invalidChars then '_' else c

/-- `str.rstrip('. ')` strips these from the right end. -/
def isStripChar (c : Char) : Bool := c == '.' || c == ' '

/-- `str.rstrip('. ')` on a character list. -/
def rstripDotSpace (l : List Char) : List Char := (l.reverse.dropWhile isStripChar).reverse

/-- `sanitize_filename` from main.py: replace Windows-invalid characters by
`'_'`, strip trailing dots and spaces, fall back to `"unnamed"` if empty. -/
def sanitize_filename (filename : String) : String :=
  let cleaned := filename.data.map replChar
  let stripped := rstripDotSpace cleaned
  if stripped.isEmpty then "unnamed" else String.mk stripped

/-! ### Filename registry (`get_unique_filename`, main.py lines 129-142)

The Python closure mutates the set `used_filenames`; the embedding threads the
set explicitly and returns the reserved name together with the grown registry.
The unbounded `while True` probe loop is embedded with fuel; fuel
`used.card` is proved sufficient (`get_unique_filename?_isSome`), so the
fuel-free wrapper `get_unique_filename` computes exactly the loop's result. -/

/-- The numbered probe name `f"{base_name}{counter}{extension}"`. -/
def probeName (base : String) (counter : Nat) (ext : String) : String :=
  base ++ Nat.repr counter ++ ext

/-- The `while True` probe loop of `get_unique_filename`, with explicit fuel.
Starting at `counter`, return the first `f"{base}{counter}{ext}"` not in
`used`. -/
def probeLoop (used : Finset String) (base ext : String) : Nat → Nat → Option String
  | 0, _ => none
  | fuel + 1, counter =>
    let filename := probeName base counter ext
    if filename ∈ used then probeLoop used base ext fuel (counter + 1)
    else some filename

/-- `get_unique_filename`, fallible form: `f"{base}{ext}"` if unreserved,
otherwise the probe loop starting at counter 1 with fuel `used.card`.  The
chosen name is inserted into the registry before it is returned. -/
def get_unique_filename? (used : Finset String) (base ext : String) :
    Option (String × Finset String) :=
  let filename := base ++ ext
  if filename ∈ used then
    (probeLoop used base ext used.card 1).map (fun f => (f, insert f used))
  else some (filename, insert filename used)

/-- Total wrapper for `get_unique_filename?`; the default branch is dead by
`get_unique_filename?_isSome`. -/
def get_unique_filename (used : Finset String) (base ext : String) :
    String × Finset String :=
  (get_unique_filename? used base ext).getD (base ++ ext, insert (base ++ ext) used)

/-! ### Shared pipeline data model -/

/-- Result of one `session.get(url)`: an HTTP response, or a raised transport
exception carrying the exception text. -/
inductive NetResult where
  | ok (status : Nat) (body : List Nat)
  | exn (msg : String)
deriving DecidableEq

/-- A network environment: what each URL returns. -/
abbrev Net := String → NetResult

/-- Terminal result of one item's fetch task. -/
inductive Outcome where
  | success
  | failed (reason : String)
deriving DecidableEq

/-- `True` exactly on `Outcome.success`. -/
def Outcome.isSuccess : Outcome → Bool
  | .success => true
  | .failed _ => false

/-- An emoji record with the required `name`/`id` fields present;
`animated` already carries the `emoji.get('animated', False)` default. -/
structure EmojiRecord where
  name : String
  id : String
  animated : Bool
deriving DecidableEq

/-- A sticker record with the required `name`/`id` fields present. -/
structure StickerRecord where
  name : String
  id : String
deriving DecidableEq

/-! ### Emoji fetch strategy (`download_single_emoji`, main.py lines 156-207) -/

/-- `f"https://cdn.discordapp.com/emojis/{emoji_id}{extension}"`. -/
def emojiUrl (emoji_id ext : String) : String :=
  "https://cdn.discordapp.com/emojis/" ++ emoji_id ++ ext

/-- `'.gif' if is_animated else '.webp'`. -/
def initialExtension (e : EmojiRecord) : String :=
  if e.animated then ".gif" else ".webp"

/-- The URL of the initial emoji fetch attempt. -/
def initialEmojiUrl (e : EmojiRecord) : String :=
  emojiUrl e.id (initialExtension e)

/-- `f"Failed to download emoji '{name}' (ID: {emoji_id}): HTTP {response.status} - {url}"`. -/
def emojiHttpFailMsg (name emoji_id : String) (status : Nat) (url : String) : String :=
  "Failed to download emoji '" ++ name ++ "' (ID: " ++ emoji_id ++ "): HTTP "
    ++ Nat.repr status ++ " - " ++ url

/-- `f"Failed to download emoji '{name}' (ID: {emoji_id}): HTTP {webp_response.status} (tried both .gif and .webp) - {url}"`. -/
def emojiFallbackFailMsg (name emoji_id : String) (status : Nat) (url : String) : String :=
  "Failed to download emoji '" ++ name ++ "' (ID: " ++ emoji_id ++ "): HTTP "
    ++ Nat.repr status ++ " (tried both .gif and .webp) - " ++ url

/-- `f"Exception downloading emoji '{name}' (ID: {emoji_id}): {str(e)} - {url}"`. -/
def emojiExnMsg (name emoji_id msg url : String) : String :=
  "Exception downloading emoji '" ++ name ++ "' (ID: " ++ emoji_id ++ "): "
    ++ msg ++ " - " ++ url

/-- Result of one emoji fetch task: the outcome, the registry after the task,
the files written (name, bytes) and the URLs requested, in request order. -/
structure EmojiResult where
  outcome : Outcome
  used : Finset String
  files : List (String × List Nat)
  requests : List String
deriving DecidableEq

/-- `download_single_emoji`: initial attempt with the extension chosen by the
`animated` flag; on HTTP 200 write under a registry-resolved name; on
HTTP 415 for an animated record retry once with `.webp`; other statuses fail
with a message naming status, id and URL; a raised exception is caught by the
outer handler (note: for an exception during the `.webp` retry the message
still carries the original URL). -/
def download_single_emoji (net : Net) (used : Finset String) (e : EmojiRecord) :
    EmojiResult :=
  let url := initialEmojiUrl e
  match net url with
  | .ok status content =>
    if status = 200 then
      let r := get_unique_filename used e.name (initialExtension e)
      ⟨.success, r.2, [(r.1, content)], [url]⟩
    else if status = 415 ∧ e.animated then
      let webp_url := emojiUrl e.id ".webp"
      match net webp_url with
      | .ok webp_status webp_content =>
        if webp_status = 200 then
          let r := get_unique_filename used e.name ".webp"
          ⟨.success, r.2, [(r.1, webp_content)], [url, webp_url]⟩
        else
          ⟨.failed (emojiFallbackFailMsg e.name e.id webp_status url), used, [],
            [url, webp_url]⟩
      | .exn msg =>
        ⟨.failed (emojiExnMsg e.name e.id msg url), used, [], [url, webp_url]⟩
    else
      ⟨.failed (emojiHttpFailMsg e.name e.id status url), used, [], [url]⟩
  | .exn msg => ⟨.failed (emojiExnMsg e.name e.id msg url), used, [], [url]⟩

/-- The outcome of one emoji task; it does not depend on the registry
(`download_single_emoji_outcome`). -/
def emojiOutcome (net : Net) (e : EmojiRecord) : Outcome :=
  (download_single_emoji net ∅ e).outcome

/-! ### Emoji executor (`download_emojis`, main.py lines 105-232)

`asyncio.gather` over one task per record.  The registry closure is the only
shared state the tasks write that influences later tasks, and every registry
access happens between two `await` points, hence atomically; the embedding
therefore threads the registry through the tasks in dispatch order.
`max_concurrent` (the semaphore width) gates scheduling only and has no
functional effect. -/

/-- Accumulated state of one emoji run. -/
structure RunResult where
  outcomes : List Outcome
  used : Finset String
  files : List (String × List Nat)
deriving DecidableEq

/-- `download_emojis` on well-formed records: one task per record, outcomes
and written files accumulated, registry threaded. -/
def download_emojis (net : Net) (max_concurrent : Nat) (records : List EmojiRecord) :
    RunResult :=
  records.foldl
    (fun acc e =>
      let r := download_single_emoji net acc.used e
      ⟨acc.outcomes ++ [r.outcome], r.used, acc.files ++ r.files⟩)
    ⟨[], ∅, []⟩

/-- `downloaded_count` at the end of a run. -/
def successCount (outcomes : List Outcome) : Nat :=
  outcomes.countP Outcome.isSuccess

/-- `failed_count` at the end of a run. -/
def failedCount (outcomes : List Outcome) : Nat :=
  outcomes.countP (fun o => ¬ o.isSuccess)

/-! ### Sticker fetch strategy (`download_single_sticker`, main.py lines 267-351)

Pillow is abstracted: a decoded image is a list of frames (each with a color
mode and an optional declared duration from `im.info.get('duration')`) plus
the `is_animated` attribute, `decode` stands for `Image.open`, and `gifOk`
tells whether the frame-extraction/GIF-encode block completes without raising
`IOError/OSError/ValueError`. -/

/-- One frame as the strategy sees it: color mode, declared duration, and an
opaque pixel-content tag. -/
structure Frame where
  mode : String
  dur : Option Nat
  pix : Nat
deriving DecidableEq

instance : Inhabited Frame := ⟨⟨"", none, 0⟩⟩

/-- A decoded image container: the `is_animated` attribute (false when the
attribute is absent or raises) and the seekable frames. -/
structure ImageContainer where
  animAttr : Bool
  frames : List Frame
deriving DecidableEq

/-- Contents of one written sticker file. -/
inductive FileContent where
  | png (frame : Frame)
  | rawPng (bytes : List Nat)
  | gif (frames : List Frame) (durations : List Nat) (loop : Nat) (disposal : Nat)
deriving DecidableEq

/-- `frame.convert('RGBA')` applied when the mode is not already `RGBA`. -/
def convertRGBA (f : Frame) : Frame :=
  if f.mode = "RGBA" then f else { f with mode := "RGBA" }

/-- `save_png_from_image` (main.py lines 22-29): keep `RGBA`/`LA` as is,
otherwise convert to `RGBA` before saving. -/
def save_png_from_image (f : Frame) : FileContent :=
  if f.mode = "RGBA" ∨ f.mode = "LA" then .png f
  else .png { f with mode := "RGBA" }

/-- `f"https://media.discordapp.net/stickers/{sticker_id}.png"`. -/
def stickerUrl (sticker_id : String) : String :=
  "https://media.discordapp.net/stickers/" ++ sticker_id ++ ".png"

/-- `f"Failed to download sticker '{name}' (ID: {sticker_id}): HTTP {response.status} - {url}"`. -/
def stickerHttpFailMsg (name sticker_id : String) (status : Nat) (url : String) : String :=
  "Failed to download sticker '" ++ name ++ "' (ID: " ++ sticker_id ++ "): HTTP "
    ++ Nat.repr status ++ " - " ++ url

/-- `f"Exception downloading sticker '{name}' (ID: {sticker_id}): {str(e)} - {url}"`. -/
def stickerExnMsg (name sticker_id msg url : String) : String :=
  "Exception downloading sticker '" ++ name ++ "' (ID: " ++ sticker_id ++ "): "
    ++ msg ++ " - " ++ url

/-- `download_single_sticker`: fetch `{id}.png`; non-200 or exception fails;
on 200 decode with Pillow — decode failure writes the raw bytes to a
`.png`-named file; a single-frame image is saved as a still PNG; a
multi-frame animated image is converted frame by frame to a looping GIF
(loop 0, disposal 2), falling back to a still PNG of the first frame when
that conversion raises.  Sticker filenames are `sanitize_filename(name)` plus
the extension — the registry is not consulted. -/
def download_single_sticker (net : Net) (decode : List Nat → Option ImageContainer)
    (gifOk : Bool) (s : StickerRecord) : Outcome × List (String × FileContent) :=
  let safe_name := sanitize_filename s.name
  let url := stickerUrl s.id
  match net url with
  | .ok status image_bytes =>
    if status = 200 then
      match decode image_bytes with
      | some im =>
        let is_animated := im.animAttr && decide (1 < im.frames.length)
        if ¬ is_animated then
          (.success, [(safe_name ++ ".png", save_png_from_image im.frames.head!)])
        else if gifOk then
          let frames := im.frames.map convertRGBA
          let durations := im.frames.map (fun f => f.dur.getD 100)
          (.success, [(safe_name ++ ".gif", .gif frames durations 0 2)])
        else
          (.success, [(safe_name ++ ".png", save_png_from_image im.frames.head!)])
      | none => (.success, [(safe_name ++ ".png", .rawPng image_bytes)])
    else (.failed (stickerHttpFailMsg s.name s.id status url), [])
  | .exn msg => (.failed (stickerExnMsg s.name s.id msg url), [])

/-- `download_stickers` on well-formed records: one task per record, no state
shared between tasks. -/
def download_stickers (net : Net) (decode : List Nat → Option ImageContainer)
    (gifOk : Bool) (records : List StickerRecord) :
    List Outcome × List (String × FileContent) :=
  records.foldl
    (fun acc s =>
      let r := download_single_sticker net decode gifOk s
      (acc.1 ++ [r.1], acc.2 ++ r.2))
    ([], [])

/-! ### Raw manifest layer (`json.load(f)['data']['emojis']`, record field
lookups, and `asyncio.gather(..., return_exceptions=True)`)

A missing `data` or `data.emojis` key raises a `KeyError` outside any task,
which terminates the run.  A record missing `name` or `id` raises a
`KeyError` inside its task but before the `try` block; `gather` with
`return_exceptions=True` captures that exception into the discarded result
list, so the record is silently skipped: no fetch, no outcome, siblings and
the run itself continue. -/

/-- An emoji entry of the raw JSON document: every field may be absent. -/
structure RawEmoji where
  name? : Option String
  id? : Option String
  animated? : Option Bool
deriving DecidableEq

/-- The raw JSON document: `data`, `data.emojis` may be absent. -/
structure RawDoc where
  data? : Option (Option (List RawEmoji))
deriving DecidableEq

/-- Field extraction performed at the top of `download_single_emoji`:
`emoji['name']`, `emoji['id']` (KeyError if absent) and
`emoji.get('animated', False)`. -/
def parseEmojiRecord (r : RawEmoji) : Option EmojiRecord :=
  match r.name?, r.id? with
  | some name, some id => some ⟨name, id, r.animated?.getD false⟩
  | _, _ => none

/-- The emoji run on the raw document.  `.error` models an uncaught
`KeyError` from `json.load(f)['data']['emojis']` terminating the run;
records whose field lookup raises are skipped by
`gather(return_exceptions=True)` and contribute no outcome. -/
def runEmojiPipeline (net : Net) (max_concurrent : Nat) (doc : RawDoc) :
    Except String RunResult :=
  match doc.data? with
  | none => .error "KeyError: 'data'"
  | some data =>
    match data with
    | none => .error "KeyError: 'emojis'"
    | some rawRecords =>
      .ok (rawRecords.foldl
        (fun acc r =>
          match parseEmojiRecord r with
          | none => acc
          | some e =>
            let res := download_single_emoji net acc.used e
            ⟨acc.outcomes ++ [res.outcome], res.used, acc.files ++ res.files⟩)
        ⟨[], ∅, []⟩)

/-! ### Registry lemmas -/

theorem probeName_injective {base ext : String} {i j : Nat}
    (h : probeName base i ext = probeName base j ext) : i = j := by
  have hd := congrArg String.data h
  simp only [probeName, String.data_append] at hd
  have h1 := List.append_cancel_right hd
  have h2 := List.append_cancel_left h1
  exact repr_injective (String.ext h2)

theorem baseName_ne_probeName (base ext : String) (k : Nat) :
    base ++ ext ≠ probeName base k ext := by
  intro h
  have hd := congrArg (fun s => s.data.length) h
  simp only [probeName, String.data_append, List.length_append] at hd
  have := repr_data_ne_nil k
  have : 0 < (Nat.repr k).data.length := List.length_pos.mpr this
  omega

theorem probeLoop_some_spec {used : Finset String} {base ext : String} :
    ∀ {fuel counter : Nat} {f : String},
      probeLoop used base ext fuel counter = some f →
      (∃ k, counter ≤ k ∧ f = probeName base k ext) ∧ f ∉ used := by
  intro fuel
  induction fuel with
  | zero => intro counter f h; simp [probeLoop] at h
  | succ n ih =>
    intro counter f h
    rw [probeLoop] at h
    by_cases hm : probeName base counter ext ∈ used
    · rw [if_pos hm] at h
      obtain ⟨⟨k, hk, hf⟩, hnm⟩ := ih h
      exact ⟨⟨k, by omega, hf⟩, hnm⟩
    · rw [if_neg hm] at h
      cases h
      exact ⟨⟨counter, le_refl _, rfl⟩, hm⟩

theorem probeLoop_none_mem {used : Finset String} {base ext : String} :
    ∀ {fuel counter : Nat}, probeLoop used base ext fuel counter = none →
      ∀ j, counter ≤ j → j < counter + fuel → probeName base j ext ∈ used := by
  intro fuel
  induction fuel with
  | zero => intro counter _ j h1 h2; omega
  | succ n ih =>
    intro counter h j h1 h2
    rw [probeLoop] at h
    by_cases hm : probeName base counter ext ∈ used
    · rw [if_pos hm] at h
      rcases Nat.eq_or_lt_of_le h1 with rfl | hlt
      · exact hm
      · exact ih h j hlt (by omega)
    · rw [if_neg hm] at h
      cases h

theorem probeLoop_finds {used : Finset String} {base ext : String} :
    ∀ {fuel counter j : Nat}, counter ≤ j → j < counter + fuel →
      (∀ i, counter ≤ i → i < j → probeName base i ext ∈ used) →
      probeName base j ext ∉ used →
      probeLoop used base ext fuel counter = some (probeName base j ext) := by
  intro fuel
  induction fuel with
  | zero => intro counter j h1 h2; omega
  | succ n ih =>
    intro counter j h1 h2 hbelow hfree
    rw [probeLoop]
    rcases Nat.eq_or_lt_of_le h1 with rfl | hlt
    · rw [if_neg hfree]
    · rw [if_pos (hbelow counter (le_refl _) hlt)]
      exact ih hlt (by omega) (fun i hi1 hi2 => hbelow i (by omega) hi2) hfree

theorem get_unique_filename?_isSome (used : Finset String) (base ext : String) :
    (get_unique_filename? used base ext).isSome = true := by
  unfold get_unique_filename?
  by_cases hm : base ++ ext ∈ used
  · rw [if_pos hm]
    cases hp : probeLoop used base ext used.card 1 with
    | some f => simp
    | none =>
      exfalso
      have hmem := probeLoop_none_mem hp
      set S : Finset String := (Finset.Icc 1 used.card).image (fun k => probeName base k ext) with hS
      have hsub : insert (base ++ ext) S ⊆ used := by
        intro s hs
        rcases Finset.mem_insert.mp hs with rfl | hs
        · exact hm
        · obtain ⟨k, hk, rfl⟩ := Finset.mem_image.mp hs
          have hk' := Finset.mem_Icc.mp hk
          exact hmem k hk'.1 (by omega)
      have hnotin : base ++ ext ∉ S := by
        intro hin
        obtain ⟨k, _, hk⟩ := Finset.mem_image.mp hin
        exact baseName_ne_probeName base ext k hk.symm
      have hScard : S.card = used.card := by
        rw [hS, Finset.card_image_of_injective _ (fun i j h => probeName_injective h),
          Nat.card_Icc]
        omega
      have hcard := Finset.card_le_card hsub
      rw [Finset.card_insert_of_not_mem hnotin, hScard] at hcard
      omega
  · rw [if_neg hm]
    simp

theorem get_unique_filename?_eq (used : Finset String) (base ext : String) :
    get_unique_filename? used base ext = some (get_unique_filename used base ext) := by
  have h := get_unique_filename?_isSome used base ext
  unfold get_unique_filename
  cases hq : get_unique_filename? used base ext with
  | none => rw [hq] at h; simp at h
  | some p => simp

theorem get_unique_filename_eq_of_not_mem {used : Finset String} {base ext : String}
    (h : base ++ ext ∉ used) :
    get_unique_filename used base ext = (base ++ ext, insert (base ++ ext) used) := by
  unfold get_unique_filename get_unique_filename?
  rw [if_neg h]
  rfl

theorem get_unique_filename_eq_of_probe {used : Finset String} {base ext f : String}
    (h : base ++ ext ∈ used) (hp : probeLoop used base ext used.card 1 = some f) :
    get_unique_filename used base ext = (f, insert f used) := by
  unfold get_unique_filename get_unique_filename?
  rw [if_pos h, hp]
  rfl

/-- The reserved name is fresh, and it is in the returned registry. -/
theorem get_unique_filename_spec (used : Finset String) (base ext : String) :
    (get_unique_filename used base ext).1 ∉ used ∧
      (get_unique_filename used base ext).2 =
        insert (get_unique_filename used base ext).1 used := by
  by_cases hm : base ++ ext ∈ used
  · have h := get_unique_filename?_eq used base ext
    unfold get_unique_filename? at h
    rw [if_pos hm] at h
    cases hp : probeLoop used base ext used.card 1 with
    | none => rw [hp] at h; simp at h
    | some f =>
      rw [get_unique_filename_eq_of_probe hm hp]
      exact ⟨(probeLoop_some_spec hp).2, rfl⟩
  · rw [get_unique_filename_eq_of_not_mem hm]
    exact ⟨hm, rfl⟩

/-- Every name the registry hands out ends with the requested extension. -/
theorem get_unique_filename_fst_ext (used : Finset String) (base ext : String) :
    ∃ p, (get_unique_filename used base ext).1 = p ++ ext := by
  by_cases hm : base ++ ext ∈ used
  · have h := get_unique_filename?_eq used base ext
    unfold get_unique_filename? at h
    rw [if_pos hm] at h
    cases hp : probeLoop used base ext used.card 1 with
    | none => rw [hp] at h; simp at h
    | some f =>
      rw [get_unique_filename_eq_of_probe hm hp]
      obtain ⟨⟨k, _, rfl⟩, _⟩ := probeLoop_some_spec hp
      exact ⟨base ++ Nat.repr k, rfl⟩
  · rw [get_unique_filename_eq_of_not_mem hm]
    exact ⟨base, rfl⟩

/-! ### A sequence of reservations on one registry -/

/-- Run a sequence of reservation requests `(base, ext)` against one registry,
collecting the returned names in order. -/
def reserveAll (used : Finset String) : List (String × String) → List String × Finset String
  | [] => ([], used)
  | req :: rest =>
    let r := get_unique_filename used req.1 req.2
    let tail := reserveAll r.2 rest
    (r.1 :: tail.1, tail.2)

/-- The name the `i`-th reservation of `base`/`ext` on a fresh registry is
expected to return: `base ++ ext` first, then `base ++ "1" ++ ext`, …. -/
def expectedName (base ext : String) (i : Nat) : String :=
  if i = 0 then base ++ ext else probeName base i ext

/-- The registry contents after `k` same-base reservations on a fresh registry. -/
def regAfter (base ext : String) (k : Nat) : Finset String :=
  (Finset.range k).image (expectedName base ext)

theorem expectedName_injective (base ext : String) :
    Function.Injective (expectedName base ext) := by
  intro i j h
  unfold expectedName at h
  by_cases hi : i = 0 <;> by_cases hj : j = 0
  · omega
  · rw [if_pos hi, if_neg hj] at h
    exact absurd h (baseName_ne_probeName base ext j)
  · rw [if_neg hi, if_pos hj] at h
    exact absurd h.symm (baseName_ne_probeName base ext i)
  · rw [if_neg hi, if_neg hj] at h
    exact probeName_injective h

theorem card_regAfter (base ext : String) (k : Nat) :
    (regAfter base ext k).card = k := by
  rw [regAfter, Finset.card_image_of_injective _ (expectedName_injective base ext),
    Finset.card_range]

theorem mem_regAfter {base ext s : String} {k : Nat} :
    s ∈ regAfter base ext k ↔ ∃ i, i < k ∧ expectedName base ext i = s := by
  simp [regAfter, Finset.mem_image]

theorem regAfter_succ (base ext : String) (k : Nat) :
    regAfter base ext (k + 1) = insert (expectedName base ext k) (regAfter base ext k) := by
  rw [regAfter, Finset.range_succ, Finset.image_insert, regAfter]

/-- One same-base reservation on the registry left by `k` previous ones
returns exactly the `k`-th expected name. -/
theorem get_unique_filename_regAfter (base ext : String) (k : Nat) :
    get_unique_filename (regAfter base ext k) base ext =
      (expectedName base ext k, regAfter base ext (k + 1)) := by
  rcases Nat.eq_zero_or_pos k with rfl | hk
  · have hempty : regAfter base ext 0 = ∅ := by simp [regAfter]
    rw [hempty, get_unique_filename_eq_of_not_mem (by simp), regAfter_succ, hempty]
    rfl
  · have hmem : base ++ ext ∈ regAfter base ext k :=
      mem_regAfter.mpr ⟨0, by omega, by simp [expectedName]⟩
    have hfree : probeName base k ext ∉ regAfter base ext k := by
      intro hin
      obtain ⟨i, hik, hi⟩ := mem_regAfter.mp hin
      have : i = k := expectedName_injective base ext (by
        rw [hi, expectedName, if_neg (by omega : ¬ k = 0)])
      omega
    have hprobe : probeLoop (regAfter base ext k) base ext (regAfter base ext k).card 1 =
        some (probeName base k ext) := by
      rw [card_regAfter]
      refine probeLoop_finds (by omega) (by omega) ?_ hfree
      intro i hi1 hi2
      exact mem_regAfter.mpr ⟨i, by omega, by rw [expectedName, if_neg (by omega : ¬ i = 0)]⟩
    rw [get_unique_filename_eq_of_probe hmem hprobe, regAfter_succ,
      expectedName, if_neg (by omega : ¬ k = 0)]

theorem reserveAll_replicate (base ext : String) :
    ∀ (N k : Nat),
      reserveAll (regAfter base ext k) (List.replicate N (base, ext)) =
        ((List.range N).map (fun i => expectedName base ext (k + i)),
          regAfter base ext (k + N)) := by
  intro N
  induction N with
  | zero => intro k; simp [reserveAll]
  | succ n ih =>
    intro k
    rw [List.replicate_succ, reserveAll]
    simp only [get_unique_filename_regAfter, ih (k + 1)]
    rw [Prod.mk.injEq]
    refine ⟨?_, ?_⟩
    · rw [List.range_succ_eq_map, List.map_cons, List.map_map]
      congr 1
      refine List.map_congr_left fun i _ => ?_
      simp only [Function.comp_apply]
      congr 1
      omega
    · congr 1
      omega

/-- Along any request sequence the returned names are pairwise distinct and
none of them was in the starting registry. -/
theorem reserveAll_nodup (reqs : List (String × String)) :
    ∀ used : Finset String,
      (reserveAll used reqs).1.Nodup ∧ ∀ f ∈ (reserveAll used reqs).1, f ∉ used := by
  induction reqs with
  | nil => intro used; simp [reserveAll]
  | cons q rest ih =>
    intro used
    rw [reserveAll]
    obtain ⟨hfresh, hreg⟩ := get_unique_filename_spec used q.1 q.2
    obtain ⟨hnodup, hnotin⟩ := ih (get_unique_filename used q.1 q.2).2
    refine ⟨List.nodup_cons.mpr ⟨?_, hnodup⟩, ?_⟩
    · intro hin
      have := hnotin _ hin
      rw [hreg] at this
      exact this (Finset.mem_insert_self _ _)
    · intro f hf
      rcases List.mem_cons.mp hf with rfl | hf
      · exact hfresh
      · intro hfu
        have := hnotin f hf
        rw [hreg] at this
        exact this (Finset.mem_insert_of_mem hfu)

/-! ### Sanitization lemmas -/

theorem replChar_replChar (c : Char) : replChar (replChar c) = replChar c := by
  unfold replChar
  by_cases h : c ∈ invalidChars
  · rw [if_pos h]
    rfl
  · rw [if_neg h, if_neg h]

theorem map_replChar_of_fixed {l : List Char} (h : ∀ c ∈ l, replChar c = c) :
    l.map replChar = l := by
  induction l with
  | nil => rfl
  | cons a t ih =>
    rw [List.map_cons, h a (List.mem_cons_self a t), ih fun c hc => h c (List.mem_cons_of_mem a hc)]

theorem mem_map_replChar_fixed {l : List Char} {x : Char} (h : x ∈ l.map replChar) :
    replChar x = x := by
  obtain ⟨c, _, rfl⟩ := List.mem_map.mp h
  exact replChar_replChar c

theorem dropWhile_idem {α : Type} (p : α → Bool) (l : List α) :
    (l.dropWhile p).dropWhile p = l.dropWhile p := by
  induction l with
  | nil => rfl
  | cons a t ih =>
    rw [List.dropWhile_cons]
    split
    · exact ih
    · rw [List.dropWhile_cons, if_neg (by assumption)]

theorem rstripDotSpace_idem (l : List Char) :
    rstripDotSpace (rstripDotSpace l) = rstripDotSpace l := by
  unfold rstripDotSpace
  rw [List.reverse_reverse, dropWhile_idem]

theorem mem_rstripDotSpace {l : List Char} {x : Char} (h : x ∈ rstripDotSpace l) : x ∈ l := by
  unfold rstripDotSpace at h
  rw [List.mem_reverse] at h
  have := (List.dropWhile_sublist isStripChar).subset h
  rwa [List.mem_reverse] at this

/-- Strings already in sanitized shape are fixed by `sanitize_filename`. -/
theorem sanitize_filename_fixed {l : List Char} (hne : l ≠ [])
    (hfix : ∀ c ∈ l, replChar c = c) (hstrip : rstripDotSpace l = l) :
    sanitize_filename (String.mk l) = String.mk l := by
  unfold sanitize_filename
  simp only [map_replChar_of_fixed hfix, hstrip]
  rw [if_neg (by simpa [List.isEmpty_iff] using hne)]

theorem sanitize_filename_idem (s : String) :
    sanitize_filename (sanitize_filename s) = sanitize_filename s := by
  have hdef : sanitize_filename s =
      (if (rstripDotSpace (s.data.map replChar)).isEmpty then "unnamed"
        else String.mk (rstripDotSpace (s.data.map replChar))) := rfl
  by_cases he : (rstripDotSpace (s.data.map replChar)).isEmpty
  · rw [hdef, if_pos he]
    decide
  · rw [hdef, if_neg he]
    refine sanitize_filename_fixed ?_ ?_ (rstripDotSpace_idem _)
    · simpa [List.isEmpty_iff] using he
    · intro c hc
      exact mem_map_replChar_fixed (mem_rstripDotSpace hc)

/-! ### Substring containment

Decidable check that `pat` occurs contiguously inside `s`, used to state
"the reason mentions …" properties of failure messages. -/

/-- `pat` occurs as a contiguous substring of `s`. -/
def containsSub (s pat : String) : Bool :=
  s.data.tails.any fun t => pat.data.isPrefixOf t

theorem containsSub_intro (a pat b : String) : containsSub (a ++ (pat ++ b)) pat = true := by
  apply List.any_eq_true.mpr
  have hmem : pat.data ++ b.data ∈ (a ++ (pat ++ b)).data.tails := by
    apply (List.mem_tails _ _).mpr
    rw [String.data_append, String.data_append]
    exact List.suffix_append _ _
  exact ⟨pat.data ++ b.data, hmem, by simp⟩

theorem containsSub_of_eq {s : String} (a pat b : String) (h : s = a ++ (pat ++ b)) :
    containsSub s pat = true := by
  rw [h]; exact containsSub_intro a pat b

/-- No string ends in both `".webp"` and `".gif"`. -/
theorem append_webp_ne_append_gif (p q : String) : p ++ ".webp" ≠ q ++ ".gif" := by
  intro h
  have hl := congrArg (fun s => s.data.getLast?) h
  simp only [String.data_append, List.getLast?_append] at hl
  have h1 : (String.data ".webp").getLast? = some 'p' := rfl
  have h2 : (String.data ".gif").getLast? = some 'f' := rfl
  rw [h1, h2, Option.or_some, Option.or_some] at hl
  exact absurd (Option.some.inj hl) (by decide)

/-! ### Emoji strategy lemmas -/

/-- Branch equation: transport exception on the initial request. -/
theorem download_single_emoji_exn_eq {net : Net} (used : Finset String) {e : EmojiRecord}
    {msg : String} (h : net (initialEmojiUrl e) = .exn msg) :
    download_single_emoji net used e =
      ⟨.failed (emojiExnMsg e.name e.id msg (initialEmojiUrl e)), used, [],
        [initialEmojiUrl e]⟩ := by
  simp [download_single_emoji, h]

/-- Branch equation: HTTP 200 on the initial request. -/
theorem download_single_emoji_200_eq {net : Net} (used : Finset String) {e : EmojiRecord}
    {content : List Nat} (h : net (initialEmojiUrl e) = .ok 200 content) :
    download_single_emoji net used e =
      ⟨.success, (get_unique_filename used e.name (initialExtension e)).2,
        [((get_unique_filename used e.name (initialExtension e)).1, content)],
        [initialEmojiUrl e]⟩ := by
  simp [download_single_emoji, h]

/-- Branch equation: terminal non-200 status on the initial request. -/
theorem download_single_emoji_fail_eq {net : Net} (used : Finset String) {e : EmojiRecord}
    {status : Nat} {content : List Nat} (h : net (initialEmojiUrl e) = .ok status content)
    (h200 : status ≠ 200) (h415 : ¬(status = 415 ∧ e.animated = true)) :
    download_single_emoji net used e =
      ⟨.failed (emojiHttpFailMsg e.name e.id status (initialEmojiUrl e)), used, [],
        [initialEmojiUrl e]⟩ := by
  simp [download_single_emoji, h, h200, h415]

/-- Branch equation: 415 on an animated record, then 200 on the `.webp` retry. -/
theorem download_single_emoji_fallback_200_eq {net : Net} (used : Finset String)
    {e : EmojiRecord} {content content2 : List Nat}
    (h : net (initialEmojiUrl e) = .ok 415 content) (ha : e.animated = true)
    (h2 : net (emojiUrl e.id ".webp") = .ok 200 content2) :
    download_single_emoji net used e =
      ⟨.success, (get_unique_filename used e.name ".webp").2,
        [((get_unique_filename used e.name ".webp").1, content2)],
        [initialEmojiUrl e, emojiUrl e.id ".webp"]⟩ := by
  simp [download_single_emoji, h, ha, h2]

/-- Branch equation: 415 on an animated record, then non-200 on the retry. -/
theorem download_single_emoji_fallback_fail_eq {net : Net} (used : Finset String)
    {e : EmojiRecord} {content content2 : List Nat} {webpStatus : Nat}
    (h : net (initialEmojiUrl e) = .ok 415 content) (ha : e.animated = true)
    (h2 : net (emojiUrl e.id ".webp") = .ok webpStatus content2) (hw : webpStatus ≠ 200) :
    download_single_emoji net used e =
      ⟨.failed (emojiFallbackFailMsg e.name e.id webpStatus (initialEmojiUrl e)), used, [],
        [initialEmojiUrl e, emojiUrl e.id ".webp"]⟩ := by
  simp [download_single_emoji, h, ha, h2, hw]

/-- Branch equation: 415 on an animated record, then an exception on the retry.
The outer handler reports the original (`.gif`) URL. -/
theorem download_single_emoji_fallback_exn_eq {net : Net} (used : Finset String)
    {e : EmojiRecord} {content : List Nat} {msg : String}
    (h : net (initialEmojiUrl e) = .ok 415 content) (ha : e.animated = true)
    (h2 : net (emojiUrl e.id ".webp") = .exn msg) :
    download_single_emoji net used e =
      ⟨.failed (emojiExnMsg e.name e.id msg (initialEmojiUrl e)), used, [],
        [initialEmojiUrl e, emojiUrl e.id ".webp"]⟩ := by
  simp [download_single_emoji, h, ha, h2]

/-- The outcome of one emoji task does not depend on the registry contents. -/
theorem download_single_emoji_outcome (net : Net) (used : Finset String) (e : EmojiRecord) :
    (download_single_emoji net used e).outcome = emojiOutcome net e := by
  unfold emojiOutcome
  cases h : net (initialEmojiUrl e) with
  | exn msg => rw [download_single_emoji_exn_eq used h, download_single_emoji_exn_eq ∅ h]
  | ok status content =>
    by_cases h200 : status = 200
    · subst h200
      rw [download_single_emoji_200_eq used h, download_single_emoji_200_eq ∅ h]
    · by_cases h415 : status = 415 ∧ e.animated = true
      · obtain ⟨rfl, ha⟩ := h415
        cases h2 : net (emojiUrl e.id ".webp") with
        | exn msg =>
          rw [download_single_emoji_fallback_exn_eq used h ha h2,
            download_single_emoji_fallback_exn_eq ∅ h ha h2]
        | ok webpStatus content2 =>
          by_cases hw : webpStatus = 200
          · subst hw
            rw [download_single_emoji_fallback_200_eq used h ha h2,
              download_single_emoji_fallback_200_eq ∅ h ha h2]
          · rw [download_single_emoji_fallback_fail_eq used h ha h2 hw,
              download_single_emoji_fallback_fail_eq ∅ h ha h2 hw]
      · rw [download_single_emoji_fail_eq used h h200 h415,
          download_single_emoji_fail_eq ∅ h h200 h415]

/-- Files written by one emoji task: fresh names, recorded in the registry. -/
theorem download_single_emoji_files (net : Net) (used : Finset String) (e : EmojiRecord) :
    (∀ f ∈ (download_single_emoji net used e).files,
      f.1 ∉ used ∧ f.1 ∈ (download_single_emoji net used e).used) ∧
    used ⊆ (download_single_emoji net used e).used ∧
    (download_single_emoji net used e).files.length ≤ 1 := by
  cases h : net (initialEmojiUrl e) with
  | exn msg =>
    rw [download_single_emoji_exn_eq used h]
    exact ⟨by simp, Finset.Subset.refl _, by simp⟩
  | ok status content =>
    by_cases h200 : status = 200
    · subst h200
      rw [download_single_emoji_200_eq used h]
      obtain ⟨hfresh, hreg⟩ := get_unique_filename_spec used e.name (initialExtension e)
      refine ⟨?_, ?_, by simp⟩
      · intro f hf
        simp only [List.mem_singleton] at hf
        subst hf
        exact ⟨hfresh, by rw [hreg]; exact Finset.mem_insert_self _ _⟩
      · rw [hreg]
        exact Finset.subset_insert _ _
    · by_cases h415 : status = 415 ∧ e.animated = true
      · obtain ⟨rfl, ha⟩ := h415
        cases h2 : net (emojiUrl e.id ".webp") with
        | exn msg =>
          rw [download_single_emoji_fallback_exn_eq used h ha h2]
          exact ⟨by simp, Finset.Subset.refl _, by simp⟩
        | ok webpStatus content2 =>
          by_cases hw : webpStatus = 200
          · subst hw
            rw [download_single_emoji_fallback_200_eq used h ha h2]
            obtain ⟨hfresh, hreg⟩ := get_unique_filename_spec used e.name ".webp"
            refine ⟨?_, ?_, by simp⟩
            · intro f hf
              simp only [List.mem_singleton] at hf
              subst hf
              exact ⟨hfresh, by rw [hreg]; exact Finset.mem_insert_self _ _⟩
            · rw [hreg]
              exact Finset.subset_insert _ _
          · rw [download_single_emoji_fallback_fail_eq used h ha h2 hw]
            exact ⟨by simp, Finset.Subset.refl _, by simp⟩
      · rw [download_single_emoji_fail_eq used h h200 h415]
        exact ⟨by simp, Finset.Subset.refl _, by simp⟩

/-- The executor appends exactly one outcome per record, each computed from
the record and the network alone. -/
theorem download_emojis_foldl_outcomes (net : Net) :
    ∀ (records : List EmojiRecord) (acc : RunResult),
      (records.foldl
        (fun acc e =>
          let r := download_single_emoji net acc.used e
          ⟨acc.outcomes ++ [r.outcome], r.used, acc.files ++ r.files⟩) acc).outcomes =
      acc.outcomes ++ records.map (emojiOutcome net) := by
  intro records
  induction records with
  | nil => intro acc; simp
  | cons e rest ih =>
    intro acc
    rw [List.foldl_cons, ih, List.map_cons]
    simp [download_single_emoji_outcome]

theorem download_emojis_outcomes (net : Net) (max_concurrent : Nat)
    (records : List EmojiRecord) :
    (download_emojis net max_concurrent records).outcomes = records.map (emojiOutcome net) := by
  unfold download_emojis
  rw [download_emojis_foldl_outcomes]
  simp

/-- In any run state whose written names are distinct and registered, one more
fold step preserves both. -/
theorem download_emojis_foldl_files (net : Net) :
    ∀ (records : List EmojiRecord) (acc : RunResult),
      (acc.files.map Prod.fst).Nodup →
      (∀ f ∈ acc.files.map Prod.fst, f ∈ acc.used) →
      ((records.foldl
          (fun acc e =>
            let r := download_single_emoji net acc.used e
            ⟨acc.outcomes ++ [r.outcome], r.used, acc.files ++ r.files⟩) acc).files.map
        Prod.fst).Nodup ∧
      ∀ f ∈ ((records.foldl
          (fun acc e =>
            let r := download_single_emoji net acc.used e
            ⟨acc.outcomes ++ [r.outcome], r.used, acc.files ++ r.files⟩) acc).files.map
        Prod.fst),
        f ∈ (records.foldl
          (fun acc e =>
            let r := download_single_emoji net acc.used e
            ⟨acc.outcomes ++ [r.outcome], r.used, acc.files ++ r.files⟩) acc).used := by
  intro records
  induction records with
  | nil => intro acc h1 h2; exact ⟨h1, h2⟩
  | cons e rest ih =>
    intro acc h1 h2
    rw [List.foldl_cons]
    obtain ⟨hper, hmono, hlen⟩ := download_single_emoji_files net acc.used e
    refine ih _ ?_ ?_
    · simp only [List.map_append]
      rw [List.nodup_append]
      refine ⟨h1, ?_, ?_⟩
      · rcases hfiles : (download_single_emoji net acc.used e).files with _ | ⟨f, rest'⟩
        · simp
        · have : rest' = [] := by
            rw [hfiles] at hlen
            simpa using hlen
          subst this
          simp
      · intro x hx hy
        have hx' := h2 x hx
        obtain ⟨g, hg, rfl⟩ := List.mem_map.mp hy
        exact (hper g hg).1 hx'
    · intro f hf
      simp only [List.map_append, List.mem_append] at hf
      rcases hf with hf | hf
      · exact hmono (h2 f hf)
      · obtain ⟨g, hg, rfl⟩ := List.mem_map.mp hf
        exact (hper g hg).2

/-- Every run of the emoji executor writes pairwise-distinct file names. -/
theorem download_emojis_files_nodup (net : Net) (max_concurrent : Nat)
    (records : List EmojiRecord) :
    ((download_emojis net max_concurrent records).files.map Prod.fst).Nodup := by
  unfold download_emojis
  exact (download_emojis_foldl_files net records ⟨[], ∅, []⟩ (by simp) (by simp)).1

/-- Success and failure counters partition the outcomes. -/
theorem successCount_add_failedCount (l : List Outcome) :
    successCount l + failedCount l = l.length := by
  induction l with
  | nil => rfl
  | cons o rest ih =>
    cases o <;> simp [successCount, failedCount, List.countP_cons, Outcome.isSuccess] at * <;>
      omega

/-! ### Sticker strategy lemmas -/

/-- Branch equation: transport exception on the sticker request. -/
theorem download_single_sticker_exn_eq {net : Net}
    (decode : List Nat → Option ImageContainer) (gifOk : Bool) {s : StickerRecord}
    {msg : String} (h : net (stickerUrl s.id) = .exn msg) :
    download_single_sticker net decode gifOk s =
      (.failed (stickerExnMsg s.name s.id msg (stickerUrl s.id)), []) := by
  simp [download_single_sticker, h]

/-- Branch equation: non-200 status on the sticker request. -/
theorem download_single_sticker_fail_eq {net : Net}
    (decode : List Nat → Option ImageContainer) (gifOk : Bool) {s : StickerRecord}
    {status : Nat} {body : List Nat} (h : net (stickerUrl s.id) = .ok status body)
    (hs : status ≠ 200) :
    download_single_sticker net decode gifOk s =
      (.failed (stickerHttpFailMsg s.name s.id status (stickerUrl s.id)), []) := by
  simp [download_single_sticker, h, hs]

/-- Branch equation: 200 but the body does not decode as an image. -/
theorem download_single_sticker_raw_eq {net : Net}
    {decode : List Nat → Option ImageContainer} (gifOk : Bool) {s : StickerRecord}
    {body : List Nat} (h : net (stickerUrl s.id) = .ok 200 body)
    (hd : decode body = none) :
    download_single_sticker net decode gifOk s =
      (.success, [(sanitize_filename s.name ++ ".png", .rawPng body)]) := by
  simp [download_single_sticker, h, hd]

/-- Branch equation: 200, decoded, not treated as animated. -/
theorem download_single_sticker_still_eq {net : Net}
    {decode : List Nat → Option ImageContainer} (gifOk : Bool) {s : StickerRecord}
    {body : List Nat} {im : ImageContainer} (h : net (stickerUrl s.id) = .ok 200 body)
    (hd : decode body = some im)
    (hanim : (im.animAttr && decide (1 < im.frames.length)) = false) :
    download_single_sticker net decode gifOk s =
      (.success, [(sanitize_filename s.name ++ ".png",
        save_png_from_image im.frames.head!)]) := by
  simp [download_single_sticker, h, hd, hanim]

/-- Branch equation: 200, decoded, animated, GIF conversion succeeds. -/
theorem download_single_sticker_gif_eq {net : Net}
    {decode : List Nat → Option ImageContainer} {gifOk : Bool} {s : StickerRecord}
    {body : List Nat} {im : ImageContainer} (h : net (stickerUrl s.id) = .ok 200 body)
    (hd : decode body = some im)
    (hanim : (im.animAttr && decide (1 < im.frames.length)) = true)
    (hg : gifOk = true) :
    download_single_sticker net decode gifOk s =
      (.success, [(sanitize_filename s.name ++ ".gif",
        .gif (im.frames.map convertRGBA) (im.frames.map fun f => f.dur.getD 100) 0 2)]) := by
  simp [download_single_sticker, h, hd, hanim, hg]

/-- Branch equation: 200, decoded, animated, GIF conversion raises. -/
theorem download_single_sticker_gif_fallback_eq {net : Net}
    {decode : List Nat → Option ImageContainer} {gifOk : Bool} {s : StickerRecord}
    {body : List Nat} {im : ImageContainer} (h : net (stickerUrl s.id) = .ok 200 body)
    (hd : decode body = some im)
    (hanim : (im.animAttr && decide (1 < im.frames.length)) = true)
    (hg : gifOk = false) :
    download_single_sticker net decode gifOk s =
      (.success, [(sanitize_filename s.name ++ ".png",
        save_png_from_image im.frames.head!)]) := by
  simp [download_single_sticker, h, hd, hanim, hg]

/-! ### Raw pipeline lemmas -/

/-- Skipping unparseable records in the raw fold is the same as running the
executor on the parseable records. -/
theorem runEmojiPipeline_foldl (net : Net) :
    ∀ (rawRecords : List RawEmoji) (acc : RunResult),
      rawRecords.foldl
        (fun acc r =>
          match parseEmojiRecord r with
          | none => acc
          | some e =>
            let res := download_single_emoji net acc.used e
            ⟨acc.outcomes ++ [res.outcome], res.used, acc.files ++ res.files⟩) acc =
      (rawRecords.filterMap parseEmojiRecord).foldl
        (fun acc e =>
          let r := download_single_emoji net acc.used e
          ⟨acc.outcomes ++ [r.outcome], r.used, acc.files ++ r.files⟩) acc := by
  intro rawRecords
  induction rawRecords with
  | nil => intro acc; rfl
  | cons r rest ih =>
    intro acc
    rw [List.foldl_cons, List.filterMap_cons]
    cases hp : parseEmojiRecord r with
    | none => simp only [hp]; exact ih acc
    | some e => simp only [hp]; rw [List.foldl_cons]; exact ih _

/-! ## Claim theorems -/

/-- C7: `sanitize_filename` is idempotent — for every string `x`,
`sanitize_filename (sanitize_filename x) = sanitize_filename x` — and applied
to the empty string it returns `"unnamed"`. -/
theorem sanitize_filename_idempotent_and_empty :
    (∀ x : String, sanitize_filename (sanitize_filename x) = sanitize_filename x) ∧
      sanitize_filename "" = "unnamed" :=
  ⟨sanitize_filename_idem, by decide⟩

/-- C10: the unique-filename reservation terminates for every base name,
extension and finite registry: probing the base name and then at most
`used.card` numbered candidates always reaches an unreserved name, so the
fuel-bounded embedding of the `while True` loop always returns a result,
which is the one the total wrapper computes. -/
theorem get_unique_filename_always_terminates :
    ∀ (used : Finset String) (base ext : String),
      (get_unique_filename? used base ext).isSome = true ∧
      get_unique_filename? used base ext = some (get_unique_filename used base ext) :=
  fun used base ext =>
    ⟨get_unique_filename?_isSome used base ext, get_unique_filename?_eq used base ext⟩

/-- C2: for a given registry no two successful reservations return the same
string — along any request sequence the returned names are pairwise distinct,
every returned name is already in the registry the call leaves behind, and
`N` reservations of one base name and extension on a fresh registry return
exactly `base ++ ext`, `base ++ "1" ++ ext`, …, `base ++ "N-1" ++ ext`. -/
theorem reserve_never_returns_duplicates (reqs : List (String × String))
    (used : Finset String) (base ext : String) (N : Nat) :
    (reserveAll used reqs).1.Nodup ∧
    (∀ (u : Finset String) (b x : String),
      (get_unique_filename u b x).1 ∈ (get_unique_filename u b x).2) ∧
    (reserveAll ∅ (List.replicate N (base, ext))).1 =
      (List.range N).map (expectedName base ext) := by
  refine ⟨(reserveAll_nodup reqs used).1, ?_, ?_⟩
  · intro u b x
    rw [(get_unique_filename_spec u b x).2]
    exact Finset.mem_insert_self _ _
  · have h0 : regAfter base ext 0 = ∅ := by simp [regAfter]
    have h := reserveAll_replicate base ext N 0
    rw [h0] at h
    rw [h]
    exact List.map_congr_left fun i _ => by rw [Nat.zero_add]

/-- C1: for every manifest of well-formed emoji records and every concurrency
limit ≥ 1 the executor produces exactly one outcome per record, with
`succeeded + failed = K`; each outcome is a function of its own record and
the network alone — so an exception inside one item's task becomes a Failed
outcome for that item and cannot cancel or corrupt the outcomes of
siblings. -/
theorem executor_one_outcome_per_record (net : Net) (max_concurrent : Nat)
    (hconc : 1 ≤ max_concurrent) (records : List EmojiRecord) :
    (download_emojis net max_concurrent records).outcomes.length = records.length ∧
    successCount (download_emojis net max_concurrent records).outcomes +
      failedCount (download_emojis net max_concurrent records).outcomes = records.length ∧
    (download_emojis net max_concurrent records).outcomes =
      records.map (emojiOutcome net) ∧
    ∀ (e : EmojiRecord) (msg : String), net (initialEmojiUrl e) = .exn msg →
      emojiOutcome net e = .failed (emojiExnMsg e.name e.id msg (initialEmojiUrl e)) := by
  have hmap := download_emojis_outcomes net max_concurrent records
  refine ⟨?_, ?_, hmap, ?_⟩
  · rw [hmap, List.length_map]
  · rw [successCount_add_failedCount, hmap, List.length_map]
  · intro e msg h
    unfold emojiOutcome
    rw [download_single_emoji_exn_eq ∅ h]

/-- Witness for C1: a one-record manifest whose fetch raises still yields
exactly one outcome. -/
theorem executor_one_outcome_per_record_witness :
    (download_emojis (fun _ => NetResult.exn "boom") 1
      [⟨"a", "1", false⟩]).outcomes.length = 1 :=
  (executor_one_outcome_per_record (fun _ => NetResult.exn "boom") 1 (by decide)
    [⟨"a", "1", false⟩]).1

/-- C3: the initial emoji fetch uses `remoteId` with `.gif` when animated and
`.webp` otherwise; HTTP 200 writes the body under a registry-resolved name
carrying that extension and succeeds; HTTP 415 on an animated record issues
exactly one `.webp` retry of the same id, which on 200 writes a
`.webp`-suffixed file and no `.gif` file; any other non-200 initial status is
a terminal failure whose reason contains the status code, the record id and
the attempted URL, with no further request. -/
theorem emoji_strategy_url_and_fallback (net : Net) (used : Finset String)
    (e : EmojiRecord) :
    (download_single_emoji net used e).requests.head? = some (initialEmojiUrl e) ∧
    match net (initialEmojiUrl e) with
    | .exn _ => True
    | .ok status content =>
      if status = 200 then
        download_single_emoji net used e =
          ⟨.success, (get_unique_filename used e.name (initialExtension e)).2,
            [((get_unique_filename used e.name (initialExtension e)).1, content)],
            [initialEmojiUrl e]⟩ ∧
        ∃ p, (get_unique_filename used e.name (initialExtension e)).1 =
          p ++ initialExtension e
      else if status = 415 ∧ e.animated = true then
        (download_single_emoji net used e).requests =
          [initialEmojiUrl e, emojiUrl e.id ".webp"] ∧
        match net (emojiUrl e.id ".webp") with
        | .exn _ => True
        | .ok webpStatus webpContent =>
          if webpStatus = 200 then
            download_single_emoji net used e =
              ⟨.success, (get_unique_filename used e.name ".webp").2,
                [((get_unique_filename used e.name ".webp").1, webpContent)],
                [initialEmojiUrl e, emojiUrl e.id ".webp"]⟩ ∧
            (∃ p, (get_unique_filename used e.name ".webp").1 = p ++ ".webp") ∧
            ∀ f ∈ (download_single_emoji net used e).files, ∀ q, f.1 ≠ q ++ ".gif"
          else True
      else
        download_single_emoji net used e =
          ⟨.failed (emojiHttpFailMsg e.name e.id status (initialEmojiUrl e)), used, [],
            [initialEmojiUrl e]⟩ ∧
        containsSub (emojiHttpFailMsg e.name e.id status (initialEmojiUrl e))
          (Nat.repr status) = true ∧
        containsSub (emojiHttpFailMsg e.name e.id status (initialEmojiUrl e)) e.id = true ∧
        containsSub (emojiHttpFailMsg e.name e.id status (initialEmojiUrl e))
          (initialEmojiUrl e) = true := by
  constructor
  · cases h : net (initialEmojiUrl e) with
    | exn msg => rw [download_single_emoji_exn_eq used h]; rfl
    | ok status content =>
      by_cases h200 : status = 200
      · subst h200
        rw [download_single_emoji_200_eq used h]; rfl
      · by_cases h415 : status = 415 ∧ e.animated = true
        · obtain ⟨rfl, ha⟩ := h415
          cases h2 : net (emojiUrl e.id ".webp") with
          | exn msg => rw [download_single_emoji_fallback_exn_eq used h ha h2]; rfl
          | ok webpStatus content2 =>
            by_cases hw : webpStatus = 200
            · subst hw
              rw [download_single_emoji_fallback_200_eq used h ha h2]; rfl
            · rw [download_single_emoji_fallback_fail_eq used h ha h2 hw]; rfl
        · rw [download_single_emoji_fail_eq used h h200 h415]; rfl
  · cases h : net (initialEmojiUrl e) with
    | exn msg => trivial
    | ok status content =>
      dsimp only
      by_cases h200 : status = 200
      · rw [if_pos h200]
        subst h200
        exact ⟨download_single_emoji_200_eq used h,
          get_unique_filename_fst_ext used e.name (initialExtension e)⟩
      · rw [if_neg h200]
        by_cases h415 : status = 415 ∧ e.animated = true
        · rw [if_pos h415]
          obtain ⟨rfl, ha⟩ := h415
          cases h2 : net (emojiUrl e.id ".webp") with
          | exn msg =>
            rw [download_single_emoji_fallback_exn_eq used h ha h2]
            exact ⟨rfl, trivial⟩
          | ok webpStatus content2 =>
            dsimp only
            by_cases hw : webpStatus = 200
            · rw [if_pos hw]
              subst hw
              rw [download_single_emoji_fallback_200_eq used h ha h2]
              obtain ⟨p, hp⟩ := get_unique_filename_fst_ext used e.name ".webp"
              refine ⟨rfl, ⟨rfl, ⟨p, hp⟩, ?_⟩⟩
              intro f hf q
              have hf' := List.mem_singleton.mp hf
              subst hf'
              rw [hp]
              exact append_webp_ne_append_gif p q
            · rw [if_neg hw]
              rw [download_single_emoji_fallback_fail_eq used h ha h2 hw]
              exact ⟨rfl, trivial⟩
        · rw [if_neg h415]
          refine ⟨download_single_emoji_fail_eq used h h200 h415, ?_, ?_, ?_⟩
          · refine containsSub_of_eq
              ("Failed to download emoji '" ++ e.name ++ "' (ID: " ++ e.id ++ "): HTTP ")
              (Nat.repr status) (" - " ++ initialEmojiUrl e) ?_
            apply String.ext
            simp [emojiHttpFailMsg]
          · refine containsSub_of_eq
              ("Failed to download emoji '" ++ e.name ++ "' (ID: ") e.id
              ("): HTTP " ++ Nat.repr status ++ " - " ++ initialEmojiUrl e) ?_
            apply String.ext
            simp [emojiHttpFailMsg]
          · refine containsSub_of_eq
              ("Failed to download emoji '" ++ e.name ++ "' (ID: " ++ e.id ++ "): HTTP "
                ++ Nat.repr status ++ " - ")
              (initialEmojiUrl e) "" ?_
            apply String.ext
            simp [emojiHttpFailMsg]

/-- A network where the animated record `1`'s `.gif` URL answers HTTP 415 and
every other request raises a transport exception. -/
def exnFallbackNet : Net := fun url =>
  if url = "https://cdn.discordapp.com/emojis/1.gif" then .ok 415 [] else .exn "boom"

/-- C4 counterexample: after HTTP 415 on the animated `.gif` attempt, a
transport exception during the `.webp` retry produces a terminal Failed
outcome whose reason does not mention `.webp` — it is the generic
exception-format message carrying the original `.gif` URL. -/
theorem emoji_fallback_exn_reason_counterexample :
    (download_single_emoji exnFallbackNet ∅ ⟨"e", "1", true⟩).outcome =
      .failed
        "Exception downloading emoji 'e' (ID: 1): boom - https://cdn.discordapp.com/emojis/1.gif" ∧
    containsSub
      "Exception downloading emoji 'e' (ID: 1): boom - https://cdn.discordapp.com/emojis/1.gif"
      ".webp" = false := by
  decide

/-- C4 (amended): in the emoji fallback state a non-200 `.webp` response
fails with a reason naming both attempted extensions (".gif" and ".webp"),
while a transport exception during the `.webp` retry is caught by the
generic outer handler: its reason is the exception-format message carrying
the exception text and the original `.gif` URL, so it notes `.gif` but not
`.webp`. -/
theorem emoji_fallback_failure_reasons (net : Net) (used : Finset String)
    (e : EmojiRecord) (content : List Nat)
    (h415 : net (initialEmojiUrl e) = .ok 415 content) (ha : e.animated = true) :
    match net (emojiUrl e.id ".webp") with
    | .ok webpStatus _ =>
      if webpStatus = 200 then True
      else
        (download_single_emoji net used e).outcome =
          .failed (emojiFallbackFailMsg e.name e.id webpStatus (initialEmojiUrl e)) ∧
        containsSub (emojiFallbackFailMsg e.name e.id webpStatus (initialEmojiUrl e))
          ".gif" = true ∧
        containsSub (emojiFallbackFailMsg e.name e.id webpStatus (initialEmojiUrl e))
          ".webp" = true
    | .exn msg =>
      (download_single_emoji net used e).outcome =
        .failed (emojiExnMsg e.name e.id msg (initialEmojiUrl e)) ∧
      containsSub (emojiExnMsg e.name e.id msg (initialEmojiUrl e)) ".gif" = true := by
  cases h2 : net (emojiUrl e.id ".webp") with
  | ok webpStatus content2 =>
    dsimp only
    by_cases hw : webpStatus = 200
    · rw [if_pos hw]
      trivial
    · rw [if_neg hw]
      refine ⟨by rw [download_single_emoji_fallback_fail_eq used h415 ha h2 hw], ?_, ?_⟩
      · refine containsSub_of_eq
          ("Failed to download emoji '" ++ e.name ++ "' (ID: " ++ e.id ++ "): HTTP "
            ++ Nat.repr webpStatus ++ " (tried both ")
          ".gif" (" and .webp) - " ++ initialEmojiUrl e) ?_
        apply String.ext
        simp [emojiFallbackFailMsg]
      · refine containsSub_of_eq
          ("Failed to download emoji '" ++ e.name ++ "' (ID: " ++ e.id ++ "): HTTP "
            ++ Nat.repr webpStatus ++ " (tried both .gif and ")
          ".webp" (") - " ++ initialEmojiUrl e) ?_
        apply String.ext
        simp [emojiFallbackFailMsg]
  | exn msg =>
    refine ⟨by rw [download_single_emoji_fallback_exn_eq used h415 ha h2], ?_⟩
    refine containsSub_of_eq
      ("Exception downloading emoji '" ++ e.name ++ "' (ID: " ++ e.id ++ "): " ++ msg
        ++ " - " ++ ("https://cdn.discordapp.com/emojis/" ++ e.id))
      ".gif" "" ?_
    apply String.ext
    simp [emojiExnMsg, initialEmojiUrl, initialExtension, emojiUrl, ha]

/-- Witness for C4 at the concrete exception-during-retry scenario. -/
theorem emoji_fallback_failure_reasons_witness :
    (download_single_emoji exnFallbackNet ∅ ⟨"e", "1", true⟩).outcome =
      .failed (emojiExnMsg "e" "1" "boom" (initialEmojiUrl ⟨"e", "1", true⟩)) ∧
    containsSub (emojiExnMsg "e" "1" "boom" (initialEmojiUrl ⟨"e", "1", true⟩))
      ".gif" = true := by
  have h := emoji_fallback_failure_reasons exnFallbackNet ∅ ⟨"e", "1", true⟩ []
    (by decide) rfl
  have h2 : exnFallbackNet (emojiUrl (EmojiRecord.mk "e" "1" true).id ".webp") =
      .exn "boom" := by decide
  rw [h2] at h
  exact h

/-- C5: a sticker whose body decodes is treated as animated exactly when the
container reports more than one frame (assuming the Pillow invariant that the
`is_animated` attribute agrees with `n_frames > 1`); when animated, every
frame is extracted in order and normalized to RGBA, the per-frame durations
default to 100ms, and the output is `{name}.gif` with loop 0 (infinite) and
disposal 2 (clear before next frame); if the conversion raises, only the
first frame is written as a still `{name}.png`; a single-frame image becomes
a still `{name}.png`; the outcome is Success in every one of these cases. -/
theorem sticker_animation_transcoding (net : Net)
    (decode : List Nat → Option ImageContainer) (gifOk : Bool) (s : StickerRecord)
    (body : List Nat) (im : ImageContainer)
    (hnet : net (stickerUrl s.id) = .ok 200 body)
    (hdec : decode body = some im)
    (hattr : im.animAttr = decide (1 < im.frames.length)) :
    if 1 < im.frames.length then
      if gifOk then
        download_single_sticker net decode gifOk s =
          (.success, [(sanitize_filename s.name ++ ".gif",
            .gif (im.frames.map convertRGBA)
              (im.frames.map fun f => f.dur.getD 100) 0 2)])
      else
        download_single_sticker net decode gifOk s =
          (.success, [(sanitize_filename s.name ++ ".png",
            save_png_from_image im.frames.head!)])
    else
      download_single_sticker net decode gifOk s =
        (.success, [(sanitize_filename s.name ++ ".png",
          save_png_from_image im.frames.head!)]) := by
  by_cases hmulti : 1 < im.frames.length
  · rw [if_pos hmulti]
    have hanim : (im.animAttr && decide (1 < im.frames.length)) = true := by
      rw [hattr]
      simp [hmulti]
    cases hg : gifOk with
    | true =>
      rw [if_pos rfl]
      exact download_single_sticker_gif_eq hnet hdec hanim rfl
    | false =>
      rw [if_neg (by simp)]
      exact download_single_sticker_gif_fallback_eq hnet hdec hanim rfl
  · rw [if_neg hmulti]
    have hanim : (im.animAttr && decide (1 < im.frames.length)) = false := by
      rw [hattr]
      simp [hmulti]
    exact download_single_sticker_still_eq gifOk hnet hdec hanim

/-- Witness for C5: a three-frame container is transcoded to a looping GIF
with normalized frames and defaulted durations. -/
theorem sticker_animation_transcoding_witness :
    download_single_sticker (fun _ => NetResult.ok 200 [5])
      (fun _ => some ⟨true, [⟨"P", some 40, 1⟩, ⟨"RGBA", none, 2⟩, ⟨"L", some 60, 3⟩]⟩)
      true ⟨"st", "9"⟩ =
      (.success, [("st.gif",
        .gif [⟨"RGBA", some 40, 1⟩, ⟨"RGBA", none, 2⟩, ⟨"RGBA", some 60, 3⟩]
          [40, 100, 60] 0 2)]) := by
  have h := sticker_animation_transcoding (fun _ => NetResult.ok 200 [5])
    (fun _ => some ⟨true, [⟨"P", some 40, 1⟩, ⟨"RGBA", none, 2⟩, ⟨"L", some 60, 3⟩]⟩)
    true ⟨"st", "9"⟩ [5]
    ⟨true, [⟨"P", some 40, 1⟩, ⟨"RGBA", none, 2⟩, ⟨"L", some 60, 3⟩]⟩ rfl rfl (by decide)
  rw [if_pos (by decide), if_pos rfl] at h
  rw [h]
  decide

/-- C6: a non-200 sticker response or transport exception yields Failed and
writes nothing; a 200 response whose body does not decode writes the raw
bytes to a `.png`-named file and succeeds; and every path in which the body
was retrieved (status 200) ends in Success, whatever the decoder and the
GIF encoder do. -/
theorem sticker_failure_only_on_fetch (net : Net)
    (decode : List Nat → Option ImageContainer) (gifOk : Bool) (s : StickerRecord) :
    match net (stickerUrl s.id) with
    | .exn msg =>
      download_single_sticker net decode gifOk s =
        (.failed (stickerExnMsg s.name s.id msg (stickerUrl s.id)), [])
    | .ok status body =>
      if status = 200 then
        (download_single_sticker net decode gifOk s).1 = .success ∧
        match decode body with
        | none =>
          (download_single_sticker net decode gifOk s).2 =
            [(sanitize_filename s.name ++ ".png", .rawPng body)]
        | some _ => True
      else
        download_single_sticker net decode gifOk s =
          (.failed (stickerHttpFailMsg s.name s.id status (stickerUrl s.id)), []) := by
  cases h : net (stickerUrl s.id) with
  | exn msg => exact download_single_sticker_exn_eq decode gifOk h
  | ok status body =>
    dsimp only
    by_cases hs : status = 200
    · rw [if_pos hs]
      subst hs
      refine ⟨?_, ?_⟩
      · cases hd : decode body with
        | none => rw [download_single_sticker_raw_eq gifOk h hd]
        | some im =>
          cases hanim : im.animAttr && decide (1 < im.frames.length) with
          | false => rw [download_single_sticker_still_eq gifOk h hd hanim]
          | true =>
            cases hg : gifOk with
            | true => rw [download_single_sticker_gif_eq h hd hanim rfl]
            | false => rw [download_single_sticker_gif_fallback_eq h hd hanim rfl]
      · cases hd : decode body with
        | none =>
          dsimp only
          rw [download_single_sticker_raw_eq gifOk h hd]
        | some im => trivial
    · rw [if_neg hs]
      exact download_single_sticker_fail_eq decode gifOk h hs

/-- C8 counterexample: two sticker records that share the name `"A"` both
write to `"A.png"` — sticker paths are not made collision-free. -/
theorem sticker_same_path_counterexample :
    (download_stickers (fun _ => NetResult.ok 200 [0]) (fun _ => none) true
        [⟨"A", "1"⟩, ⟨"A", "2"⟩]).2.map Prod.fst = ["A.png", "A.png"] ∧
    ¬ ((download_stickers (fun _ => NetResult.ok 200 [0]) (fun _ => none) true
        [⟨"A", "1"⟩, ⟨"A", "2"⟩]).2.map Prod.fst).Nodup := by
  decide

/-- C8 (amended): filename handling differs by kind — the emoji executor
resolves every output name through the registry, so all file names written in
one emoji run are pairwise distinct (though built from the raw, unsanitized
record name), while each sticker writes to `sanitize_filename name` plus
`".png"` or `".gif"` without consulting any registry, so equal-named sticker
records write to the same path. -/
theorem filename_resolution_per_kind (net : Net) (max_concurrent : Nat)
    (records : List EmojiRecord) (decode : List Nat → Option ImageContainer)
    (gifOk : Bool) (s : StickerRecord) :
    ((download_emojis net max_concurrent records).files.map Prod.fst).Nodup ∧
    ∀ f ∈ (download_single_sticker net decode gifOk s).2,
      f.1 = sanitize_filename s.name ++ ".png" ∨
      f.1 = sanitize_filename s.name ++ ".gif" := by
  refine ⟨download_emojis_files_nodup net max_concurrent records, ?_⟩
  intro f hf
  cases h : net (stickerUrl s.id) with
  | exn msg =>
    rw [download_single_sticker_exn_eq decode gifOk h] at hf
    simp at hf
  | ok status body =>
    by_cases hs : status = 200
    · subst hs
      cases hd : decode body with
      | none =>
        rw [download_single_sticker_raw_eq gifOk h hd] at hf
        have := List.mem_singleton.mp hf
        subst this
        left
        rfl
      | some im =>
        cases hanim : im.animAttr && decide (1 < im.frames.length) with
        | false =>
          rw [download_single_sticker_still_eq gifOk h hd hanim] at hf
          have := List.mem_singleton.mp hf
          subst this
          left
          rfl
        | true =>
          cases hg : gifOk with
          | true =>
            rw [download_single_sticker_gif_eq h hd hanim hg] at hf
            have := List.mem_singleton.mp hf
            subst this
            right
            rfl
          | false =>
            rw [download_single_sticker_gif_fallback_eq h hd hanim hg] at hf
            have := List.mem_singleton.mp hf
            subst this
            left
            rfl
    · rw [download_single_sticker_fail_eq decode gifOk h hs] at hf
      simp at hf

/-- C9 counterexample: a manifest whose single record lacks the `name` field
is silently skipped — the run completes normally with zero outcomes and no
fetch instead of terminating with a failure. -/
theorem manifest_missing_name_counterexample :
    runEmojiPipeline (fun _ => NetResult.ok 200 []) 5
      ⟨some (some [⟨none, some "1", none⟩])⟩ = .ok ⟨[], ∅, []⟩ := by
  rfl

/-- C9 (amended): a document missing the `data` or `data.emojis` arrays
terminates the run with an uncaught KeyError; a record missing `name` or `id`
instead raises inside its task, where `gather(return_exceptions=True)`
silently captures the exception: the record is skipped — no fetch and no
outcome for it — while the run completes normally, processing exactly the
records whose required fields are present. -/
theorem manifest_validation_behavior (net : Net) (max_concurrent : Nat) (doc : RawDoc) :
    match doc.data? with
    | none => runEmojiPipeline net max_concurrent doc = .error "KeyError: 'data'"
    | some none => runEmojiPipeline net max_concurrent doc = .error "KeyError: 'emojis'"
    | some (some rawRecords) =>
      runEmojiPipeline net max_concurrent doc =
        .ok (download_emojis net max_concurrent
          (rawRecords.filterMap parseEmojiRecord)) := by
  obtain ⟨d⟩ := doc
  cases d with
  | none => rfl
  | some d2 =>
    cases d2 with
    | none => rfl
    | some rawRecords =>
      dsimp only
      show Except.ok _ = _
      rw [runEmojiPipeline_foldl net rawRecords ⟨[], ∅, []⟩]
      rfl

end EmojiesParser
